import Mathlib

/-!
Verification development for the resy-utilities repository.

This file gives a shallow embedding of the Reservation Acquisition Engine:
the slot selector (`get_matching_reservation`, `table_type_matches` in
resy-reserver/src/main.rs), the payment-method resolution
(`ReservationDetails.get_payment_id` in libresy/src/resy_data.rs), the
booking sequencer (`attempt_reservation` in resy-reserver/src/main.rs), the
schedule-delay computation and the bounded retry loop (the `Automatic`
branch of `main` in resy-reserver/src/main.rs), and proves properties of
those embedded definitions.

Times of day are modelled as seconds since midnight; `chrono::NaiveTime`
values compare exactly like their seconds-since-midnight encodings, and the
program only ever compares, subtracts, and day-rolls times.
-/

namespace Resy

/-- Embedding of Rust's `char::to_ascii_lowercase`: ASCII uppercase letters
are shifted to lowercase, every other character is unchanged. -/
def to_ascii_lowercase (c : Char) : Char :=
  if 'A' ≤ c ∧ c ≤ 'Z' then Char.ofNat (c.toNat + 32) else c

/-- Embedding of Rust's `str::eq_ignore_ascii_case` (used by
`table_type_matches`): the strings have the same length and corresponding
characters agree after ASCII lowercasing. -/
def eq_ignore_ascii_case (a b : String) : Bool :=
  a.length == b.length &&
    (a.data.zip b.data).all fun p => to_ascii_lowercase p.1 == to_ascii_lowercase p.2

/-- Embedding of `ReservationSlotConfig` (libresy/src/resy_data.rs). -/
structure ReservationSlotConfig where
  id : Nat
  slot_type : String
  token : String
deriving DecidableEq, Repr

/-- Embedding of `ReservationSlot` (libresy/src/resy_data.rs).

Modelled from the spec: the copy of `ReservationSlot` under src/ declares
only the `config` field, while resy-reserver/src/main.rs reads
`slot.date.to_datetime().time()`; the spec's data model gives each slot a
`startDateTime`. The `time` field below is the time-of-day component of
that start datetime, in seconds since midnight. -/
structure ReservationSlot where
  time : Nat
  config : ReservationSlotConfig
deriving DecidableEq, Repr

/-- Embedding of `ReservationTimeMode` (resy-reserver/src/main.rs). -/
inductive ReservationTimeMode where
  | exact
  | earlier
  | later
deriving DecidableEq, Repr

/-- Embedding of `table_type_matches` (resy-reserver/src/main.rs lines
127-132): if the user provided a requested table type it must equal the
slot's type ignoring ASCII case, otherwise every slot matches. -/
def table_type_matches (slot_type : String) (requested_table_type : Option String) : Bool :=
  match requested_table_type with
  | some r => eq_ignore_ascii_case r slot_type
  | none => true

/-- Embedding of `get_matching_reservation` (resy-reserver/src/main.rs lines
135-171). Exact: first slot whose time equals the target and whose type
matches. Earlier: last element of the iterator filtered to time ≤ target and
matching type. Later: first slot with time ≥ target and matching type. -/
def get_matching_reservation (reservations : List ReservationSlot) (time : Nat)
    (table_type : Option String) (time_mode : ReservationTimeMode) :
    Option ReservationSlot :=
  match time_mode with
  | ReservationTimeMode.exact =>
      reservations.find? fun reservation_slot =>
        reservation_slot.time == time &&
          table_type_matches reservation_slot.config.slot_type table_type
  | ReservationTimeMode.earlier =>
      (reservations.filter fun r =>
        decide (r.time ≤ time) && table_type_matches r.config.slot_type table_type).getLast?
  | ReservationTimeMode.later =>
      reservations.find? fun r =>
        decide (time ≤ r.time) && table_type_matches r.config.slot_type table_type

/-- Embedding of `PaymentMethod` (libresy/src/resy_data.rs). -/
structure PaymentMethod where
  id : String
deriving DecidableEq, Repr

/-- Embedding of `DetailsUser` (libresy/src/resy_data.rs). -/
structure DetailsUser where
  payment_methods : List PaymentMethod
deriving DecidableEq, Repr

/-- Embedding of `BookToken` (libresy/src/resy_data.rs). -/
structure BookToken where
  date_expires : String
  value : String
deriving DecidableEq, Repr

/-- Embedding of `ReservationDetails` (libresy/src/resy_data.rs). -/
structure ReservationDetails where
  user : DetailsUser
  book_token : BookToken
deriving DecidableEq, Repr

/-- Embedding of `ReservationDetails::get_payment_id` (libresy/src/resy_data.rs
lines 126-131): the id of the first payment method on file, if any. -/
def ReservationDetails.get_payment_id (d : ReservationDetails) : Option String :=
  match d.user.payment_methods.head? with
  | some p => some p.id
  | none => none

/-- Result of running one booking attempt. `panic` models a Rust panic
(`Option::unwrap` on `None`), which unwinds past the caller and aborts the
process; `err` models `Err(anyhow!(msg))`. -/
inductive RunResult where
  | ok
  | err (msg : String)
  | panic
deriving DecidableEq, Repr

/-- Embedding of `attempt_reservation` (resy-reserver/src/main.rs lines
173-216). The two remote calls that follow slot selection are passed in as
oracles: `get_details` models a successful `get_reservation_details`
response and `book` models `book_restaurant` (called with the details'
book token and the unwrapped payment id). When `get_payment_id` is `none`,
the `.unwrap()` at line 204 panics before `book_restaurant` is ever
invoked, which the embedding records as `RunResult.panic`. -/
def attempt_reservation (reservations : List ReservationSlot) (time : Nat)
    (table_type : Option String) (time_mode : ReservationTimeMode)
    (get_details : ReservationSlot → ReservationDetails)
    (book : BookToken → String → RunResult) : RunResult :=
  if reservations.isEmpty then
    RunResult.err "No reservations exist at the restaurant for the given date and party size"
  else
    match get_matching_reservation reservations time table_type time_mode with
    | some r =>
        let reservation_details := get_details r
        match reservation_details.get_payment_id with
        | some payment_id => book reservation_details.book_token payment_id
        | none => RunResult.panic
    | none => RunResult.err "No reservation was found for the given time and time_mode"

/-- One day in seconds, the amount `checked_add_days(Days::new(1))` adds to
a naive datetime. -/
def secondsPerDay : Int := 86400

/-- Embedding of the delay computation in the `Automatic` branch of `main`
(resy-reserver/src/main.rs lines 244-258), with `now` and `start_time`
given as seconds since midnight of the current day. When
`start_time < now` the code waits until tomorrow at `start_time`
(`(now_date + 1 day).and_time(start_time) - now`, as instants:
`secondsPerDay + startTime - now`); otherwise it waits `start_time - now`
within the same day. -/
def scheduleDelay (now startTime : Int) : Int :=
  if startTime < now then
    secondsPerDay + startTime - now
  else
    startTime - now

/-- Embedding of the sleep guard at resy-reserver/src/main.rs lines 260-262:
the process sleeps only when `delay.num_seconds() > 0`, so the duration
actually slept is the computed delay clamped to zero. -/
def sleptSeconds (now startTime : Int) : Int :=
  if 0 < scheduleDelay now startTime then scheduleDelay now startTime else 0

/-- Observable events of the retry loop: one booking attempt with its
0-based index, or a sleep of the given number of seconds. -/
inductive Event where
  | attempt (i : Nat)
  | sleep (secs : Nat)
deriving DecidableEq, Repr

/-- Embedding of the body of `for i in 0..retry_count` in the `Automatic`
branch of `main` (resy-reserver/src/main.rs lines 263-294 and the final
`Ok(())` at line 311). `fuel` is the number of loop iterations left,
`i` the current index, with `i + fuel = n` maintained by the caller. On
`Ok` the function returns early with success; on `Err` it sleeps
`retry_delay` seconds if `i < retry_count - 1` and continues; when the
loop exhausts, control falls through to `Ok(())`. -/
def retryLoopFrom (f : Nat → Except String Unit) (n d : Nat) :
    Nat → Nat → List Event × Except String Unit
  | 0, _ => ([], Except.ok ())
  | fuel + 1, i =>
      match f i with
      | Except.ok _ => ([Event.attempt i], Except.ok ())
      | Except.error _ =>
          let tail := retryLoopFrom f n d fuel (i + 1)
          if i < n - 1 then
            (Event.attempt i :: Event.sleep d :: tail.1, tail.2)
          else
            (Event.attempt i :: tail.1, tail.2)

/-- The whole `Automatic` retry loop: `n` = `retry_count`, `d` =
`retry_delay`, `f i` the outcome of `attempt_reservation` on try `i`.
Returns the trace of events together with the value `main` returns. -/
def retryRun (f : Nat → Except String Unit) (n d : Nat) : List Event × Except String Unit :=
  retryLoopFrom f n d n 0

/-- Whether an event is a booking attempt. -/
def Event.isAttempt : Event → Bool
  | Event.attempt _ => true
  | Event.sleep _ => false

/-- Number of booking attempts recorded in a trace. -/
def countAttempts (tr : List Event) : Nat :=
  (tr.filter Event.isAttempt).length

/-- Concrete slot used in witnesses: 12:30 (= 45000 s), Indoor. -/
def slotIndoor1230 : ReservationSlot :=
  { time := 45000, config := { id := 1, slot_type := "Indoor", token := "tok1230" } }

/-- Concrete slot used in witnesses: 12:45 (= 45900 s), Outdoor. -/
def slotOutdoor1245 : ReservationSlot :=
  { time := 45900, config := { id := 2, slot_type := "Outdoor", token := "tok1245" } }

/-- Concrete slot used in witnesses: 13:00 (= 46800 s), Indoor. -/
def slotIndoor1300 : ReservationSlot :=
  { time := 46800, config := { id := 3, slot_type := "Indoor", token := "tok1300" } }

/-- Concrete ascending slot list from the end-to-end scenario of the spec. -/
def demoSlots : List ReservationSlot :=
  [slotIndoor1230, slotOutdoor1245, slotIndoor1300]

/-- Concrete booking-details response whose payment-method list is empty. -/
def demoDetailsNoPayment : ReservationDetails :=
  { user := { payment_methods := [] },
    book_token := { date_expires := "2024-01-01", value := "booktok" } }

section Helpers

variable {α : Type} {R : α → α → Prop} {p q : α → Bool}

/-- A successful `find?` splits the list into a prefix of elements failing
the predicate, the found element, and a suffix. -/
theorem find?_split :
    ∀ {l : List α} {s : α}, l.find? p = some s →
      ∃ l₁ l₂, l = l₁ ++ s :: l₂ ∧ ∀ x ∈ l₁, p x = false := by
  intro l
  induction l with
  | nil => intro s h; simp at h
  | cons a t ih =>
    intro s h
    by_cases hpa : p a = true
    · rw [List.find?_cons_of_pos _ hpa] at h
      obtain rfl : a = s := Option.some.inj h
      exact ⟨[], t, rfl, by simp⟩
    · rw [List.find?_cons_of_neg _ hpa] at h
      obtain ⟨l₁, l₂, rfl, hfail⟩ := ih h
      refine ⟨a :: l₁, l₂, rfl, ?_⟩
      intro x hx
      rcases List.mem_cons.mp hx with rfl | hxt
      · exact Bool.eq_false_iff.mpr hpa
      · exact hfail x hxt

/-- In a pairwise-related list, the element `find?` returns is related to
every later element that satisfies the predicate: it is minimal among the
satisfying elements. -/
theorem find?_min_of_pairwise :
    ∀ {l : List α} {s : α}, l.Pairwise R → l.find? p = some s →
      ∀ x ∈ l, p x = true → x = s ∨ R s x := by
  intro l
  induction l with
  | nil => intro s _ h; simp at h
  | cons a t ih =>
    intro s hpw hf x hx hpx
    rw [List.pairwise_cons] at hpw
    by_cases hpa : p a = true
    · rw [List.find?_cons_of_pos _ hpa] at hf
      obtain rfl : a = s := Option.some.inj hf
      rcases List.mem_cons.mp hx with rfl | hxt
      · exact Or.inl rfl
      · exact Or.inr (hpw.1 x hxt)
    · rw [List.find?_cons_of_neg _ hpa] at hf
      rcases List.mem_cons.mp hx with rfl | hxt
      · exact absurd hpx hpa
      · exact ih hpw.2 hf x hxt hpx

/-- In a pairwise-related list, every element is related to the last one:
the last element is maximal. -/
theorem getLast?_max_of_pairwise :
    ∀ {l : List α} {s : α}, l.Pairwise R → l.getLast? = some s →
      ∀ x ∈ l, x = s ∨ R x s := by
  intro l
  induction l with
  | nil => intro s _ h; simp at h
  | cons a t ih =>
    intro s hpw hlast x hx
    rw [List.pairwise_cons] at hpw
    cases t with
    | nil =>
      obtain rfl : a = s := Option.some.inj hlast
      rcases List.mem_cons.mp hx with rfl | hxt
      · exact Or.inl rfl
      · simp at hxt
    | cons b t2 =>
      rw [List.getLast?_cons_cons] at hlast
      rcases List.mem_cons.mp hx with rfl | hxt
      · have hs : s ∈ b :: t2 := List.mem_of_mem_getLast? (Option.mem_def.mpr hlast)
        exact Or.inr (hpw.1 s hs)
      · exact ih hpw.2 hlast x hxt

/-- Searching a filtered list is the same as searching the original list
with the conjunction of the two predicates. -/
theorem find?_filter_swap (p q : α → Bool) :
    ∀ l : List α, (l.filter q).find? p = l.find? fun a => p a && q a := by
  intro l
  induction l with
  | nil => rfl
  | cons a t ih =>
    by_cases hq : q a = true
    · rw [List.filter_cons_of_pos hq]
      by_cases hp : p a = true
      · rw [List.find?_cons_of_pos _ hp, List.find?_cons_of_pos _ (by simp [hp, hq])]
      · rw [List.find?_cons_of_neg _ hp, List.find?_cons_of_neg _ (by simp [hp]), ih]
    · rw [List.filter_cons_of_neg hq, List.find?_cons_of_neg _ (by simp [hq]), ih]

/-- Length-plus-zip characterization of mapped-list equality, the shape of
`eq_ignore_ascii_case`. -/
theorem zip_all_eq_map_eq (f : Char → Char) :
    ∀ xs ys : List Char,
      ((xs.length == ys.length) &&
        (xs.zip ys).all fun pr => f pr.1 == f pr.2) = true ↔
        xs.map f = ys.map f := by
  intro xs
  induction xs with
  | nil => intro ys; cases ys <;> simp
  | cons a t ih =>
    intro ys
    cases ys with
    | nil => simp
    | cons b u =>
      simp only [List.length_cons, List.zip_cons_cons, List.all_cons, Bool.and_eq_true,
        beq_iff_eq, List.map_cons, List.cons.injEq]
      constructor
      · rintro ⟨hlen, hab, hall⟩
        refine ⟨hab, (ih u).mp ?_⟩
        simp only [Bool.and_eq_true, beq_iff_eq]
        exact ⟨by omega, hall⟩
      · rintro ⟨hab, hmap⟩
        have h2 := (ih u).mpr hmap
        simp only [Bool.and_eq_true, beq_iff_eq] at h2
        exact ⟨by omega, hab, h2.2⟩

end Helpers

/-- Two strings satisfy `eq_ignore_ascii_case` exactly when they agree
character by character after ASCII lowercasing. -/
theorem eq_ignore_ascii_case_iff (a b : String) :
    eq_ignore_ascii_case a b = true ↔
      a.data.map to_ascii_lowercase = b.data.map to_ascii_lowercase := by
  unfold eq_ignore_ascii_case
  exact zip_all_eq_map_eq to_ascii_lowercase a.data b.data

/-- When every attempt in the remaining window fails, the loop walks through
all remaining indices, sleeping after every attempt except the last one,
and falls through to `Ok(())`. -/
theorem retryLoopFrom_all_error (f : Nat → Except String Unit) (n d : Nat)
    (hf : ∀ i, i < n → ∃ e, f i = Except.error e) :
    ∀ fuel i, i + fuel = n →
      retryLoopFrom f n d fuel i =
        ((List.range' i fuel).flatMap fun j =>
           if j + 1 < n then [Event.attempt j, Event.sleep d] else [Event.attempt j],
         Except.ok ()) := by
  intro fuel
  induction fuel with
  | zero => intro i _; rfl
  | succ m ih =>
    intro i hi
    obtain ⟨e, he⟩ := hf i (by omega)
    have htail := ih (i + 1) (by omega)
    rw [List.range'_succ, List.flatMap_cons]
    by_cases hlast : i + 1 < n
    · have hlt : i < n - 1 := by omega
      simp [retryLoopFrom, he, htail, if_pos hlt, if_pos hlast]
    · have hlt : ¬ i < n - 1 := by omega
      simp [retryLoopFrom, he, htail, if_neg hlt, if_neg hlast]

/-- The all-failure trace contains exactly one attempt event per index. -/
theorem countAttempts_error_trace (n d : Nat) :
    ∀ fuel i, countAttempts ((List.range' i fuel).flatMap fun j =>
        if j + 1 < n then [Event.attempt j, Event.sleep d] else [Event.attempt j]) = fuel := by
  intro fuel
  induction fuel with
  | zero => intro i; rfl
  | succ m ih =>
    intro i
    rw [List.range'_succ, List.flatMap_cons]
    unfold countAttempts at ih ⊢
    rw [List.filter_append, List.length_append, ih (i + 1)]
    by_cases h : i + 1 < n <;> simp [h, Event.isAttempt] <;> omega

/-- If the first success happens at index `k` inside the remaining window
and everything before it failed, the loop returns success having made
exactly the attempts `i, i+1, …, k`. -/
theorem retryLoopFrom_stops_at_success (f : Nat → Except String Unit) (n d k : Nat)
    (hok : f k = Except.ok ()) :
    ∀ fuel i, i ≤ k → k < i + fuel →
      (∀ j, i ≤ j → j < k → ∃ e, f j = Except.error e) →
      (retryLoopFrom f n d fuel i).2 = Except.ok () ∧
      countAttempts (retryLoopFrom f n d fuel i).1 = k - i + 1 := by
  intro fuel
  induction fuel with
  | zero => intro i h1 h2 _; omega
  | succ m ih =>
    intro i h1 h2 herr
    rcases Nat.eq_or_lt_of_le h1 with rfl | hlt
    · simp [retryLoopFrom, hok, countAttempts, Event.isAttempt]
    · obtain ⟨e, he⟩ := herr i (Nat.le_refl i) hlt
      have htail := ih (i + 1) (by omega) (by omega)
        (fun j hj1 hj2 => herr j (by omega) hj2)
      by_cases hlast : i < n - 1
      · simp only [retryLoopFrom, he, if_pos hlast]
        refine ⟨htail.1, ?_⟩
        unfold countAttempts at htail ⊢
        rw [List.filter_cons_of_pos rfl,
          List.filter_cons_of_neg (by simp [Event.isAttempt]),
          List.length_cons, htail.2]
        omega
      · simp only [retryLoopFrom, he, if_neg hlast]
        refine ⟨htail.1, ?_⟩
        unfold countAttempts at htail ⊢
        rw [List.filter_cons_of_pos rfl, List.length_cons, htail.2]
        omega

/-- Claim C1: with a matching slot present but a booking-details response
holding zero payment methods, `attempt_reservation` does not produce a
`NoPaymentMethod`-style error outcome and does not merely skip the booking
call: the `.unwrap()` on `get_payment_id` panics (for every possible
booking oracle, so `book_restaurant` is never invoked), and that panic
unwinds out of the retry loop and aborts the process. -/
theorem c1_zero_payment_methods_panics (book : BookToken → String → RunResult) :
    get_matching_reservation [slotIndoor1230] 45000 none ReservationTimeMode.exact =
      some slotIndoor1230 ∧
    ReservationDetails.get_payment_id demoDetailsNoPayment = none ∧
    attempt_reservation [slotIndoor1230] 45000 none ReservationTimeMode.exact
      (fun _ => demoDetailsNoPayment) book = RunResult.panic :=
  ⟨rfl, rfl, rfl⟩

/-- Claim C2, counterexample: with one attempt that fails, the retry loop of
`main` falls through to the final `Ok(())`, so the final result is success,
not the last attempt's outcome. -/
theorem c2_exhaustion_counterexample :
    retryRun (fun _ => Except.error "No reservation was found for the given time and time_mode")
        1 3 =
      ([Event.attempt 0], Except.ok ()) ∧
    (Except.ok () : Except String Unit) ≠
      Except.error "No reservation was found for the given time and time_mode" :=
  ⟨rfl, fun h => Except.noConfusion h⟩

/-- Claim C2, amended: after exhausting all `n ≥ 1` attempts without a
success, the loop has made exactly `n` attempts and `main` nevertheless
returns `Ok(())` — the last attempt's outcome is only printed, never
returned, so the caller observes success, not a failure. -/
theorem c2_exhaustion_returns_ok (n d : Nat) (f : Nat → Except String Unit)
    (_hn : 1 ≤ n) (hf : ∀ i, i < n → ∃ e, f i = Except.error e) :
    countAttempts (retryRun f n d).1 = n ∧ (retryRun f n d).2 = Except.ok () := by
  have h := retryLoopFrom_all_error f n d hf n 0 (by omega)
  unfold retryRun
  rw [h]
  exact ⟨countAttempts_error_trace n d n 0, rfl⟩

/-- Witness for C2's amended theorem at `n = 2`, `d = 3`, all attempts
failing. -/
theorem c2_exhaustion_returns_ok_witness :
    countAttempts (retryRun (fun _ => Except.error "boom") 2 3).1 = 2 ∧
    (retryRun (fun _ => Except.error "boom") 2 3).2 = Except.ok () :=
  c2_exhaustion_returns_ok 2 3 (fun _ => Except.error "boom") (by decide)
    (fun _ _ => ⟨"boom", rfl⟩)

/-- Claim C3, counterexample: when `startTime` equals `now.time()` the code
takes the same-day branch (`start_time < now` is false) and computes delay
`0`; the claim's rollover formula would give `secondsPerDay`. -/
theorem c3_equal_time_counterexample :
    scheduleDelay 43200 43200 = 0 ∧ scheduleDelay 43200 43200 ≠ secondsPerDay := by
  constructor <;> norm_num [scheduleDelay, secondsPerDay]

/-- Claim C3, amended: the schedule calculator returns
`startTime − now.time()` exactly when `startTime ≥ now.time()` (including
equality, where the delay is `0`), and rolls over one calendar day —
`(tomorrow at startTime) − now` — exactly when `startTime < now.time()`. -/
theorem c3_schedule_branches (now startTime : Int) :
    (now ≤ startTime → scheduleDelay now startTime = startTime - now) ∧
    (startTime < now → scheduleDelay now startTime = secondsPerDay + startTime - now) ∧
    (startTime < now → scheduleDelay now startTime ≠ startTime - now) := by
  unfold scheduleDelay secondsPerDay
  refine ⟨?_, ?_, ?_⟩
  · intro h; rw [if_neg (by omega)]
  · intro h; rw [if_pos h]
  · intro h; rw [if_pos h]; omega

/-- Witness for C3's amended theorem: same-day at 11:00 → 11:59 and
rollover at 12:00 → 11:59. -/
theorem c3_schedule_branches_witness :
    scheduleDelay 39600 43140 = 43140 - 39600 ∧
    scheduleDelay 43200 43140 = secondsPerDay + 43140 - 43200 :=
  ⟨(c3_schedule_branches 39600 43140).1 (by decide),
   (c3_schedule_branches 43200 43140).2.1 (by decide)⟩

/-- Claim C9: the duration actually slept is never negative — a non-positive
computed delay is clamped to zero by the `delay.num_seconds() > 0` guard —
and within one day's bounds the computed delay itself is already
non-negative. At `now = 12:00`, `startTime = 11:59` the delay rolls over to
tomorrow (`secondsPerDay − 60`); at `now = 11:00`, `startTime = 11:59` it is
a same-day 59 minutes (3540 s). -/
theorem c9_sleep_never_negative :
    (∀ now startTime : Int, 0 ≤ sleptSeconds now startTime) ∧
    (∀ now startTime : Int, scheduleDelay now startTime ≤ 0 →
      sleptSeconds now startTime = 0) ∧
    (∀ now startTime : Int, 0 ≤ now → now < secondsPerDay → 0 ≤ startTime →
      0 ≤ scheduleDelay now startTime) ∧
    scheduleDelay 43200 43140 = secondsPerDay - 60 ∧
    sleptSeconds 43200 43140 = secondsPerDay - 60 ∧
    scheduleDelay 39600 43140 = 3540 ∧
    sleptSeconds 39600 43140 = 3540 := by
  refine ⟨?_, ?_, ?_, ?_, ?_, ?_, ?_⟩
  · intro now startTime
    unfold sleptSeconds
    split <;> omega
  · intro now startTime h
    unfold sleptSeconds
    split <;> omega
  · intro now startTime h1 h2 h3
    unfold scheduleDelay secondsPerDay at *
    split <;> omega
  · norm_num [scheduleDelay, secondsPerDay]
  · norm_num [sleptSeconds, scheduleDelay, secondsPerDay]
  · norm_num [scheduleDelay]
  · norm_num [sleptSeconds, scheduleDelay]

/-- Witness for C9 at concrete inputs, discharging the bound hypotheses. -/
theorem c9_sleep_never_negative_witness :
    0 ≤ sleptSeconds 43200 43140 ∧
    sleptSeconds 50000 50000 = 0 ∧
    0 ≤ scheduleDelay 43200 43140 :=
  ⟨c9_sleep_never_negative.1 43200 43140,
   c9_sleep_never_negative.2.1 50000 50000 (by norm_num [scheduleDelay]),
   c9_sleep_never_negative.2.2.1 43200 43140 (by decide) (by decide) (by decide)⟩

/-- Claim C4: the retry controller makes exactly one attempt when the first
attempt succeeds; when every attempt fails it makes exactly `maxAttempts`
attempts, with a sleep of `delayBetween` after every attempt except the
final one (the explicit trace shows the interleaving); and it stops right
after the first success, having made `k + 1` attempts when the first
success is attempt index `k`. -/
theorem c4_retry_controller (n d : Nat) (f : Nat → Except String Unit) (hn : 1 ≤ n) :
    (f 0 = Except.ok () → retryRun f n d = ([Event.attempt 0], Except.ok ())) ∧
    ((∀ i, i < n → ∃ e, f i = Except.error e) →
      (retryRun f n d).1 = (List.range n).flatMap (fun i =>
        if i + 1 < n then [Event.attempt i, Event.sleep d] else [Event.attempt i]) ∧
      countAttempts (retryRun f n d).1 = n) ∧
    (∀ k, k < n → (∀ i, i < k → ∃ e, f i = Except.error e) → f k = Except.ok () →
      (retryRun f n d).2 = Except.ok () ∧ countAttempts (retryRun f n d).1 = k + 1) := by
  refine ⟨?_, ?_, ?_⟩
  · intro hok
    obtain ⟨m, rfl⟩ : ∃ m, n = m + 1 := ⟨n - 1, by omega⟩
    unfold retryRun
    simp [retryLoopFrom, hok]
  · intro hf
    have h := retryLoopFrom_all_error f n d hf n 0 (by omega)
    unfold retryRun
    rw [h, List.range_eq_range']
    exact ⟨rfl, countAttempts_error_trace n d n 0⟩
  · intro k hk herr hok
    have h := retryLoopFrom_stops_at_success f n d k hok n 0 (by omega) (by omega)
      (fun j _ hj => herr j hj)
    unfold retryRun
    exact ⟨h.1, h.2.trans (by omega)⟩

/-- Witness for C4 at `n = 3`, `d = 7`: an immediately-successful attempt
function runs once, and one that first succeeds at index 1 runs twice. -/
theorem c4_retry_controller_witness :
    retryRun (fun _ => Except.ok ()) 3 7 = ([Event.attempt 0], Except.ok ()) ∧
    countAttempts
      (retryRun (fun i => if i == 1 then Except.ok () else Except.error "e") 3 7).1 = 2 :=
  ⟨(c4_retry_controller 3 7 (fun _ => Except.ok ()) (by decide)).1 rfl,
   ((c4_retry_controller 3 7 (fun i => if i == 1 then Except.ok () else Except.error "e")
      (by decide)).2.2 1 (by decide)
      (fun i hi => ⟨"e", by obtain rfl : i = 0 := Nat.lt_one_iff.mp hi
                            rfl⟩) rfl).2⟩

/-- Claim C5: under the `Earlier` policy on a list sorted ascending by
time, the selector returns a slot that is in the list, passes the
table-type filter, has time ≤ target, and has the greatest time among all
qualifying slots with time ≤ target; it returns `none` exactly when no
qualifying slot has time ≤ target. -/
theorem c5_earlier_policy (l : List ReservationSlot) (t : Nat) (tt : Option String)
    (hsort : l.Pairwise fun a b => a.time ≤ b.time) :
    (∀ s, get_matching_reservation l t tt ReservationTimeMode.earlier = some s →
      s ∈ l ∧ s.time ≤ t ∧ table_type_matches s.config.slot_type tt = true ∧
      ∀ x ∈ l, table_type_matches x.config.slot_type tt = true → x.time ≤ t →
        x.time ≤ s.time) ∧
    (get_matching_reservation l t tt ReservationTimeMode.earlier = none →
      ∀ x ∈ l, table_type_matches x.config.slot_type tt = true → ¬ x.time ≤ t) := by
  constructor
  · intro s hs
    replace hs : (l.filter fun r =>
        decide (r.time ≤ t) && table_type_matches r.config.slot_type tt).getLast? = some s := hs
    have hmem := List.mem_of_mem_getLast? (Option.mem_def.mpr hs)
    have hmf := List.mem_filter.mp hmem
    have hcond := hmf.2
    simp only [Bool.and_eq_true, decide_eq_true_eq] at hcond
    refine ⟨hmf.1, hcond.1, hcond.2, ?_⟩
    intro x hx hxt hxle
    have hxf : x ∈ l.filter fun r =>
        decide (r.time ≤ t) && table_type_matches r.config.slot_type tt :=
      List.mem_filter.mpr ⟨hx, by simp [hxle, hxt]⟩
    have hpw : (l.filter fun r =>
        decide (r.time ≤ t) && table_type_matches r.config.slot_type tt).Pairwise
        (fun a b => a.time ≤ b.time) :=
      List.Pairwise.sublist (List.filter_sublist l) hsort
    rcases getLast?_max_of_pairwise hpw hs x hxf with rfl | hle
    · exact Nat.le_refl _
    · exact hle
  · intro hnone x hx hxt hxle
    replace hnone : (l.filter fun r =>
        decide (r.time ≤ t) && table_type_matches r.config.slot_type tt).getLast? = none := hnone
    rw [List.getLast?_eq_none_iff] at hnone
    have hxf : x ∈ l.filter fun r =>
        decide (r.time ≤ t) && table_type_matches r.config.slot_type tt :=
      List.mem_filter.mpr ⟨hx, by simp [hxle, hxt]⟩
    rw [hnone] at hxf
    simp at hxf

/-- Witness for C5 on the spec's end-to-end scenario: target 12:46 with the
`Earlier` policy selects the 12:45 slot. -/
theorem c5_earlier_policy_witness :
    slotOutdoor1245 ∈ demoSlots ∧ slotOutdoor1245.time ≤ 45960 :=
  have h := (c5_earlier_policy demoSlots 45960 none (by decide)).1 slotOutdoor1245 rfl
  ⟨h.1, h.2.1⟩

/-- Claim C6: under the `Later` policy on a list sorted ascending by time,
the selector returns a slot that is in the list, passes the table-type
filter, has time ≥ target, and has the least time among all qualifying
slots with time ≥ target; it returns `none` exactly when no qualifying slot
has time ≥ target. -/
theorem c6_later_policy (l : List ReservationSlot) (t : Nat) (tt : Option String)
    (hsort : l.Pairwise fun a b => a.time ≤ b.time) :
    (∀ s, get_matching_reservation l t tt ReservationTimeMode.later = some s →
      s ∈ l ∧ t ≤ s.time ∧ table_type_matches s.config.slot_type tt = true ∧
      ∀ x ∈ l, table_type_matches x.config.slot_type tt = true → t ≤ x.time →
        s.time ≤ x.time) ∧
    (get_matching_reservation l t tt ReservationTimeMode.later = none →
      ∀ x ∈ l, table_type_matches x.config.slot_type tt = true → ¬ t ≤ x.time) := by
  constructor
  · intro s hs
    replace hs : l.find? (fun r =>
        decide (t ≤ r.time) && table_type_matches r.config.slot_type tt) = some s := hs
    have hmem := List.mem_of_find?_eq_some hs
    have hcond := List.find?_some hs
    simp only [Bool.and_eq_true, decide_eq_true_eq] at hcond
    refine ⟨hmem, hcond.1, hcond.2, ?_⟩
    intro x hx hxt hxge
    rcases find?_min_of_pairwise hsort hs x hx (by simp [hxge, hxt]) with rfl | hle
    · exact Nat.le_refl _
    · exact hle
  · intro hnone x hx hxt hxge
    replace hnone : l.find? (fun r =>
        decide (t ≤ r.time) && table_type_matches r.config.slot_type tt) = none := hnone
    rw [List.find?_eq_none] at hnone
    have := hnone x hx
    simp [hxge, hxt] at this

/-- Witness for C6 on the spec's end-to-end scenario: target 12:46 with the
`Later` policy selects the 13:00 slot. -/
theorem c6_later_policy_witness :
    slotIndoor1300 ∈ demoSlots ∧ 45960 ≤ slotIndoor1300.time :=
  have h := (c6_later_policy demoSlots 45960 none (by decide)).1 slotIndoor1300 rfl
  ⟨h.1, h.2.1⟩

/-- Claim C7: under the `Exact` policy (no ordering assumption) the
selector returns a slot iff some slot has the target time and passes the
type filter; a returned slot is an element of the input with the target
time, and the input splits as a prefix of non-qualifying slots followed by
the returned slot — the first qualifying slot in input order wins. -/
theorem c7_exact_policy (l : List ReservationSlot) (t : Nat) (tt : Option String) :
    ((get_matching_reservation l t tt ReservationTimeMode.exact).isSome = true ↔
      ∃ s ∈ l, s.time = t ∧ table_type_matches s.config.slot_type tt = true) ∧
    (∀ s, get_matching_reservation l t tt ReservationTimeMode.exact = some s →
      s ∈ l ∧ s.time = t ∧ table_type_matches s.config.slot_type tt = true ∧
      ∃ l₁ l₂, l = l₁ ++ s :: l₂ ∧
        ∀ x ∈ l₁, ¬(x.time = t ∧ table_type_matches x.config.slot_type tt = true)) := by
  constructor
  · have hdef : get_matching_reservation l t tt ReservationTimeMode.exact
        = l.find? fun s => s.time == t && table_type_matches s.config.slot_type tt := rfl
    rw [hdef, List.find?_isSome]
    constructor
    · rintro ⟨x, hx, hpx⟩
      simp only [Bool.and_eq_true, beq_iff_eq] at hpx
      exact ⟨x, hx, hpx.1, hpx.2⟩
    · rintro ⟨x, hx, h1, h2⟩
      exact ⟨x, hx, by simp [h1, h2]⟩
  · intro s hs
    replace hs : l.find? (fun s =>
        s.time == t && table_type_matches s.config.slot_type tt) = some s := hs
    have hmem := List.mem_of_find?_eq_some hs
    have hcond := List.find?_some hs
    simp only [Bool.and_eq_true, beq_iff_eq] at hcond
    obtain ⟨l₁, l₂, heq, hfail⟩ := find?_split hs
    refine ⟨hmem, hcond.1, hcond.2, l₁, l₂, heq, ?_⟩
    intro x hx hcontr
    have := hfail x hx
    simp [hcontr.1, hcontr.2] at this

/-- Witness for C7: in the demo list a slot with time 12:30 exists, so the
`Exact` selector returns a slot. -/
theorem c7_exact_policy_witness :
    (get_matching_reservation demoSlots 45000 none ReservationTimeMode.exact).isSome = true :=
  (c7_exact_policy demoSlots 45000 none).1.mpr ⟨slotIndoor1230, by decide, rfl, rfl⟩

/-- Claim C8: the table-type filter is ASCII case-insensitive — a slot
qualifies iff its type equals the requested type after ASCII lowercasing,
and every slot qualifies when no type is requested — and pre-filtering the
slot list by table type yields exactly the same selection as running any
policy with the filter inline. -/
theorem c8_filter_case_insensitive_commutes :
    (∀ st r : String, table_type_matches st (some r) = true ↔
      r.data.map to_ascii_lowercase = st.data.map to_ascii_lowercase) ∧
    (∀ st : String, table_type_matches st none = true) ∧
    (∀ (l : List ReservationSlot) (t : Nat) (tt : Option String)
        (mode : ReservationTimeMode),
      get_matching_reservation
          (l.filter fun s => table_type_matches s.config.slot_type tt) t none mode =
        get_matching_reservation l t tt mode) := by
  refine ⟨?_, ?_, ?_⟩
  · intro st r
    exact eq_ignore_ascii_case_iff r st
  · intro st
    rfl
  · intro l t tt mode
    cases mode with
    | exact =>
      show (l.filter fun s => table_type_matches s.config.slot_type tt).find?
          (fun s => s.time == t && table_type_matches s.config.slot_type none) =
        l.find? fun s => s.time == t && table_type_matches s.config.slot_type tt
      rw [find?_filter_swap]
      simp only [show ∀ st : String, table_type_matches st none = true from fun _ => rfl,
        Bool.and_true]
    | earlier =>
      show ((l.filter fun s => table_type_matches s.config.slot_type tt).filter fun s =>
          decide (s.time ≤ t) && table_type_matches s.config.slot_type none).getLast? =
        (l.filter fun s =>
          decide (s.time ≤ t) && table_type_matches s.config.slot_type tt).getLast?
      rw [List.filter_filter]
      congr 1
      apply List.filter_congr
      intro x _
      simp only [show ∀ st : String, table_type_matches st none = true from fun _ => rfl,
        Bool.and_true]
    | later =>
      show (l.filter fun s => table_type_matches s.config.slot_type tt).find?
          (fun s => decide (t ≤ s.time) && table_type_matches s.config.slot_type none) =
        l.find? fun s => decide (t ≤ s.time) && table_type_matches s.config.slot_type tt
      rw [find?_filter_swap]
      simp only [show ∀ st : String, table_type_matches st none = true from fun _ => rfl,
        Bool.and_true]

/-- Witness for C8: mixed-case table types match, and the selection on the
demo list is unchanged by pre-filtering. -/
theorem c8_filter_case_insensitive_commutes_witness :
    table_type_matches "Indoor" (some "INdoOr") = true ∧
    get_matching_reservation
        (demoSlots.filter fun s => table_type_matches s.config.slot_type (some "indoor"))
        45960 none ReservationTimeMode.earlier =
      get_matching_reservation demoSlots 45960 (some "indoor") ReservationTimeMode.earlier :=
  ⟨(c8_filter_case_insensitive_commutes.1 "Indoor" "INdoOr").mpr (by decide),
   c8_filter_case_insensitive_commutes.2.2 demoSlots 45960 (some "indoor")
     ReservationTimeMode.earlier⟩

/-- Claim C10: with `retry_count = 0` in `Automatic` mode the loop body
never runs — no attempt (and hence no slot fetch, selection, or booking
call) is made, whatever the attempt function would do — and `main` falls
through to `Ok(())`, a success result. -/
theorem c10_zero_retry_count (f : Nat → Except String Unit) (d : Nat) :
    retryRun f 0 d = ([], Except.ok ()) := rfl

end Resy
